import Mathlib

/-!
# Kinetic: shard topology, batch dispatch and the multilang bridge

A shallow embedding of three functions of the repository and the properties
proved about them:

* `KinesisWriter.getConcurrencyMultiplier` (`producer/kinesiswriter.go`),
* `KinesisWriter.PutRecords` (`producer/kinesiswriter.go`),
* `KclReader.processRecords` / `GetRecord` / `GetRecords` / `processAction`
  (`listener/kclreader.go`).

Conventions of the embedding.

* A Go `*string` is an `Option String`; `aws.StringValue` maps `nil` to `""`.
* A Go `map[string]bool` is an association list with pairwise distinct keys
  (`ShardMap`); the only iteration over it (`range shardMap`) computes a count
  that does not depend on the iteration order.
* A Go pair `(int, error)` is a Lean pair `Int × Option KError`.
* A run-time panic (index out of range, nil dereference) is `none`.
* Elements of `resp.StreamDescription.Shards` and of `resp.Records` are taken
  as present (non-nil pointers); elements of the `messages` argument of
  `PutRecords` may be nil, as the source tests for it.
* Writes to standard output and sends on the listener channel are recorded in
  lists, in order; timing, blocking and logging are not modelled.
-/

namespace Kinetic

/-! ## Errors -/

/-- Call-level errors.  `ErrNilDescribeStreamResponse` and
`ErrNilStreamDescription` are declared in `kinetic.go`; the two put-records
errors are referenced by `kinesiswriter.go`; `api` stands for an error value
handed back by the service client. -/
inductive KError where
  | ErrNilDescribeStreamResponse
  | ErrNilStreamDescription
  | ErrNilPutRecordsResponse
  | ErrNilFailedRecordCount
  | api (msg : String)
  deriving DecidableEq, Repr

/-! ## Shard topology (`getConcurrencyMultiplier`) -/

/-- The fields of `kinesis.Shard` read by the source. -/
structure Shard where
  ShardId : Option String
  ParentShardId : Option String
  AdjacentParentShardId : Option String
  deriving DecidableEq, Repr

/-- The part of `kinesis.StreamDescription` read by the source. -/
structure StreamDescription where
  Shards : List Shard
  deriving DecidableEq, Repr

/-- The part of `kinesis.DescribeStreamOutput` read by the source. -/
structure DescribeStreamOutput where
  StreamDescription : Option StreamDescription
  deriving DecidableEq, Repr

/-- A Go `map[string]bool`: entries with pairwise distinct keys. -/
abbrev ShardMap := List (String × Bool)

/-- The test `_, ok := shardMap[k]`. -/
def ShardMap.has (m : ShardMap) (k : String) : Bool :=
  m.any (fun e => e.1 == k)

/-- The assignment `shardMap[k] = v`: overwrite the entry of `k`, or add one. -/
def ShardMap.put (m : ShardMap) (k : String) (v : Bool) : ShardMap :=
  if m.has k then m.map (fun e => if e.1 == k then (k, v) else e) else m ++ [(k, v)]

/-- One iteration of the first loop (lines 165-172). -/
def collectStep (shardMap : ShardMap) (shard : Shard) : ShardMap :=
  match shard.ShardId with
  | some shardID => if !shardMap.has shardID then shardMap.put shardID false else shardMap
  | none => shardMap

/-- One iteration of the second loop (lines 175-188). -/
def markStep (shardMap : ShardMap) (shard : Shard) : ShardMap :=
  let m1 :=
    match shard.ParentShardId with
    | some shardID => if shardMap.has shardID then shardMap.put shardID true else shardMap
    | none => shardMap
  match shard.AdjacentParentShardId with
  | some shardID => if m1.has shardID then m1.put shardID true else m1
  | none => m1

/-- The third loop (lines 191-196): start from `len(shardMap)` and decrement
once per entry whose value is `true`. -/
def countOpen (shardMap : ShardMap) : Int :=
  shardMap.foldl (fun openShardCount e => if e.2 then openShardCount - 1 else openShardCount)
    (shardMap.length : Int)

/-- The source function `KinesisWriter.getConcurrencyMultiplier`, applied to the
pair `(resp, err)` returned by `DescribeStream`. -/
def getConcurrencyMultiplier (resp : Option DescribeStreamOutput) (err : Option KError) :
    Int × Option KError :=
  match err with
  | some e => (0, some e)
  | none =>
    match resp with
    | none => (0, some KError.ErrNilDescribeStreamResponse)
    | some resp =>
      match resp.StreamDescription with
      | none => (0, some KError.ErrNilStreamDescription)
      | some sd =>
        let shardMap := sd.Shards.foldl collectStep []
        let shardMap := sd.Shards.foldl markStep shardMap
        (countOpen shardMap, none)

/-- A successful describe-stream response carrying the descriptor list. -/
def describeOk (shards : List Shard) : Option DescribeStreamOutput :=
  some { StreamDescription := some { Shards := shards } }

/-! ### Specification-side vocabulary for the topology -/

/-- The shard ids present in a descriptor list, in order, with repetitions. -/
def shardIds (shards : List Shard) : List String :=
  shards.filterMap (fun s => s.ShardId)

/-- The distinct shard ids present in a descriptor list. -/
def distinctIds (shards : List Shard) : List String :=
  (shardIds shards).dedup

/-- Descriptor `s` names `id` as its parent or as its adjacent parent. -/
def refersTo (s : Shard) (id : String) : Bool :=
  s.ParentShardId == some id || s.AdjacentParentShardId == some id

/-- Some descriptor of the list (possibly the one carrying `id`) names `id` as
parent or adjacent parent. -/
def referenced (shards : List Shard) (id : String) : Bool :=
  shards.any (fun s => refersTo s id)

/-- The reading of the specification sentence with "another": `id` is carried
by the descriptor at some position and named as parent or adjacent parent by
the descriptor at a different position. -/
def referencedByAnother (shards : List Shard) (id : String) : Bool :=
  (List.range shards.length).any (fun i =>
    (List.range shards.length).any (fun j =>
      i != j && (shards.get? i).any (fun s => s.ShardId == some id)
        && (shards.get? j).any (fun s => refersTo s id)))

/-- The count the specification sentence predicts, with "another" read
literally. -/
def openCountByAnother (shards : List Shard) : Int :=
  ((distinctIds shards).length : Int)
    - (((distinctIds shards).filter (referencedByAnother shards)).length : Int)

/-- The descriptor list with every parent or adjacent-parent reference to an id
that is absent from the list removed. -/
def dropAbsentRefs (shards : List Shard) : List Shard :=
  shards.map (fun s =>
    { s with
      ParentShardId := s.ParentShardId.filter (fun p => decide (p ∈ shardIds shards))
      AdjacentParentShardId :=
        s.AdjacentParentShardId.filter (fun p => decide (p ∈ shardIds shards)) })

/-! ## Batch dispatch (`PutRecords`) -/

/-- Modelled from the spec: the record type `kinetic.Message`, whose declaration
is not among the source files covered here.  Section 3 lists its fields:
partition key, payload bytes, assigned sequence number, assigned shard id, error
code, error message and a monotonic fail count, taken here as an unbounded
counter. -/
structure Message where
  PartitionKey : Option String
  Data : List Nat
  SequenceNumber : Option String
  ShardID : Option String
  ErrorCode : Option String
  ErrorMessage : Option String
  FailCount : Nat
  deriving DecidableEq, Repr

/-- The fields of `kinesis.PutRecordsRequestEntry` filled from a message. -/
structure PutRecordsRequestEntry where
  Data : List Nat
  PartitionKey : Option String
  deriving DecidableEq, Repr

/-- Modelled from the spec: `Message.ToRequestEntry`, not among the source files
covered here: the request entry carrying the payload and the partition key of
the message, which is left as it is. -/
def Message.ToRequestEntry (m : Message) : PutRecordsRequestEntry :=
  { Data := m.Data, PartitionKey := m.PartitionKey }

/-- The fields of `kinesis.PutRecordsResultEntry` read by the source. -/
structure PutRecordsResultEntry where
  SequenceNumber : Option String
  ShardId : Option String
  ErrorCode : Option String
  ErrorMessage : Option String
  deriving DecidableEq, Repr

/-- The fields of `kinesis.PutRecordsOutput` read by the source. -/
structure PutRecordsOutput where
  FailedRecordCount : Option Int
  Records : List PutRecordsResultEntry
  deriving DecidableEq, Repr

/-- Modelled from the spec: the counters behind the `StatsCollector` interface
(section 6: calls made, successes, failures, throughput-exceeded), whose
declaration is not among the source files covered here.  Each counter holds the
sum of the increments it received; the duration samples are not modelled. -/
structure Stats where
  putRecordsCalled : Nat
  sentSuccess : Nat
  sentFailed : Nat
  provisionedThroughputExceeded : Nat
  deriving DecidableEq, Repr

/-- The call `Stats.AddPutRecordsCalled(n)`. -/
def Stats.AddPutRecordsCalled (s : Stats) (n : Nat) : Stats :=
  { s with putRecordsCalled := s.putRecordsCalled + n }

/-- The call `Stats.AddSentSuccess(n)`. -/
def Stats.AddSentSuccess (s : Stats) (n : Nat) : Stats :=
  { s with sentSuccess := s.sentSuccess + n }

/-- The call `Stats.AddSentFailed(n)`. -/
def Stats.AddSentFailed (s : Stats) (n : Nat) : Stats :=
  { s with sentFailed := s.sentFailed + n }

/-- The call `Stats.AddProvisionedThroughputExceeded(n)`. -/
def Stats.AddProvisionedThroughputExceeded (s : Stats) (n : Nat) : Stats :=
  { s with provisionedThroughputExceeded := s.provisionedThroughputExceeded + n }

/-- The helper `aws.StringValue`. -/
def StringValue (p : Option String) : String :=
  match p with
  | some v => v
  | none => ""

/-- The constant `kinesis.ErrCodeProvisionedThroughputExceededException`. -/
def ErrCodeProvisionedThroughputExceededException : String :=
  "ProvisionedThroughputExceededException"

/-- What a call of `PutRecords` acts on: the records of the batch (a nil pointer
is `none`), the counters, and the arguments of the calls of the failure callback
`fn` made so far, in order, each as the record was when passed. -/
structure PutState where
  messages : List (Option Message)
  stats : Stats
  fnCalls : List Message
  deriving DecidableEq, Repr

/-- The body of the loop over `resp.Records` (lines 112-130) at index `idx`.
`messages[idx]` panics when `idx` is out of range, and writing through it panics
when it is nil. -/
def applyOutcome (st : PutState) (idx : Nat) (record : PutRecordsResultEntry) :
    Option PutState :=
  match st.messages[idx]? with
  | none => none
  | some none => none
  | some (some msg) =>
    if record.SequenceNumber.isSome && record.ShardId.isSome then
      some
        { st with
          messages := st.messages.set idx
            (some { msg with SequenceNumber := record.SequenceNumber, ShardID := record.ShardId })
          stats := st.stats.AddSentSuccess 1 }
    else
      let stats1 :=
        if StringValue record.ErrorCode == ErrCodeProvisionedThroughputExceededException then
          st.stats.AddProvisionedThroughputExceeded 1
        else st.stats
      let failed : Message :=
        { msg with
          ErrorCode := record.ErrorCode
          ErrorMessage := record.ErrorMessage
          FailCount := msg.FailCount + 1 }
      some
        { messages := st.messages.set idx (some failed)
          stats := stats1.AddSentFailed 1
          fnCalls := st.fnCalls ++ [failed] }

/-- The loop `for idx, record := range resp.Records` from index `idx` on. -/
def outcomeLoop : Nat → List PutRecordsResultEntry → PutState → Option PutState
  | _, [], st => some st
  | idx, record :: rest, st =>
    match applyOutcome st idx record with
    | none => none
    | some st1 => outcomeLoop (idx + 1) rest st1

/-- The request entries built from the batch (lines 60-65): nil messages are
skipped. -/
def requestEntries (messages : List (Option Message)) : List PutRecordsRequestEntry :=
  messages.filterMap (fun msg => msg.map Message.ToRequestEntry)

/-- The service behind `w.client`: for the request entries of one call, the
response object and the error of `req.Send()`. -/
abbrev PutRecordsClient := List PutRecordsRequestEntry → Option PutRecordsOutput × Option KError

/-- The source function `KinesisWriter.PutRecords`: the records, counters and
callback calls after the call, with the error returned; `none` is a panic. -/
def PutRecords (client : PutRecordsClient) (stats : Stats) (messages : List (Option Message)) :
    Option (PutState × Option KError) :=
  let records := requestEntries messages
  let stats := stats.AddPutRecordsCalled 1
  match client records with
  | (_, some err) => some ({ messages := messages, stats := stats, fnCalls := [] }, some err)
  | (none, none) =>
    some ({ messages := messages, stats := stats, fnCalls := [] },
      some KError.ErrNilPutRecordsResponse)
  | (some resp, none) =>
    match resp.FailedRecordCount with
    | none =>
      some ({ messages := messages, stats := stats, fnCalls := [] },
        some KError.ErrNilFailedRecordCount)
    | some _ =>
      match outcomeLoop 0 resp.Records { messages := messages, stats := stats, fnCalls := [] } with
      | none => none
      | some st => some (st, none)

/-! ### Specification-side vocabulary for the dispatch -/

/-- The outcome carries both a sequence number and a shard id. -/
def isSuccess (record : PutRecordsResultEntry) : Bool :=
  record.SequenceNumber.isSome && record.ShardId.isSome

/-- The outcome is a failure with the provisioned-throughput-exceeded code. -/
def isThroughputExceeded (record : PutRecordsResultEntry) : Bool :=
  !isSuccess record && StringValue record.ErrorCode == ErrCodeProvisionedThroughputExceededException

/-- The record after its outcome has been applied: on success the sequence number
and the shard id of the outcome are stored; on failure the error code and the
error message of the outcome are stored and the fail count grows by one. -/
def annotate (msg : Message) (record : PutRecordsResultEntry) : Message :=
  if isSuccess record then
    { msg with SequenceNumber := record.SequenceNumber, ShardID := record.ShardId }
  else
    { msg with
      ErrorCode := record.ErrorCode
      ErrorMessage := record.ErrorMessage
      FailCount := msg.FailCount + 1 }

/-- The records passed to the failure callback: the failed ones, as annotated, in
index order. -/
def failedCalls (msgs : List Message) (records : List PutRecordsResultEntry) : List Message :=
  (List.zip msgs records).filterMap
    (fun p => if isSuccess p.2 then none else some (annotate p.1 p.2))

/-- The counters after the outcomes `records` have been tallied. -/
def tally (stats : Stats) (records : List PutRecordsResultEntry) : Stats :=
  { putRecordsCalled := stats.putRecordsCalled
    sentSuccess := stats.sentSuccess + records.countP isSuccess
    sentFailed := stats.sentFailed + records.countP (fun r => !isSuccess r)
    provisionedThroughputExceeded :=
      stats.provisionedThroughputExceeded + records.countP isThroughputExceeded }

/-- A fresh record with the given partition key. -/
def newMessage (key : String) : Message :=
  { PartitionKey := some key, Data := [], SequenceNumber := none, ShardID := none,
    ErrorCode := none, ErrorMessage := none, FailCount := 0 }

/-- A success outcome. -/
def okEntry (seq shard : String) : PutRecordsResultEntry :=
  { SequenceNumber := some seq, ShardId := some shard, ErrorCode := none, ErrorMessage := none }

/-- A throughput-exceeded failure outcome. -/
def throttledEntry : PutRecordsResultEntry :=
  { SequenceNumber := none, ShardId := none,
    ErrorCode := some ErrCodeProvisionedThroughputExceededException,
    ErrorMessage := some "Rate exceeded" }

/-- Counters at zero. -/
def zeroStats : Stats :=
  { putRecordsCalled := 0, sentSuccess := 0, sentFailed := 0, provisionedThroughputExceeded := 0 }

/-- The batch of the example of section 8: five records. -/
def fiveMessages : List Message :=
  [newMessage "k0", newMessage "k1", newMessage "k2", newMessage "k3", newMessage "k4"]

/-- The response of the example of section 8: indices 2 and 4 fail as
throughput-exceeded. -/
def fiveOutcomes : PutRecordsOutput :=
  { FailedRecordCount := some 2
    Records := [okEntry "s0" "shard-0", okEntry "s1" "shard-0", throttledEntry,
      okEntry "s3" "shard-0", throttledEntry] }

/-! ## The multilang bridge (`KclReader`) -/

/-- Modelled from the spec: the action names of package `multilang`, whose
source is not among the source files covered here.  Section 6 lists the inbound
actions `initialize`, `processRecords`, `checkpoint`, `shutdown` and the outbound
action `status`; `Other` is any other action string (the `default` branch). -/
inductive ActionType where
  | Initialize
  | ProcessRecords
  | Checkpoint
  | Shutdown
  | Status
  | Other (name : String)
  deriving DecidableEq, Repr

/-- Modelled from the spec: `multilang.ActionMessage`, an action with the records
it delivers (inbound) or with the action it answers (outbound, `responseFor`).
The record type `message.Message` is a parameter. -/
structure ActionMessage (Msg : Type) where
  Action : ActionType
  ResponseFor : Option ActionType
  Records : List Msg
  deriving DecidableEq, Repr

/-- Modelled from the spec: `multilang.NewStatusMessage`, the outbound object
with action `status` and `responseFor` the originating action. -/
def NewStatusMessage {Msg : Type} (responseFor : ActionType) : ActionMessage Msg :=
  { Action := ActionType.Status, ResponseFor := some responseFor, Records := [] }

/-- One write to standard output: the message written, and the length the
message buffer had when it was written (a history variable, used only to state
when an acknowledgment was emitted). -/
structure Emission (Msg : Type) where
  msg : ActionMessage Msg
  bufferLen : Nat
  deriving DecidableEq, Repr

/-- The state of a `KclReader` that has been associated with a listener: the
three optional callbacks, the message buffer, the ack-pending flag, and the two
output streams it writes to: `listenerMessages`, the records sent on
`r.listener.messages`, and `stdout`, the writes of `sendMessage`, both oldest
first.  The mutex, the scanner and the throttle semaphore are not modelled. -/
structure KclReader (Msg : Type) where
  onInitCallbackFn : Option (Unit → Option KError)
  onCheckpointCallbackFn : Option (Unit → Option KError)
  onShutdownCallbackFn : Option (Unit → Option KError)
  msgBuffer : List Msg
  ackPending : Bool
  listenerMessages : List Msg
  stdout : List (Emission Msg)

/-- The source function `NewKclReader` with the callbacks of its configuration:
an empty buffer and no acknowledgment pending. -/
def NewKclReader {Msg : Type} (onInit onCheckpoint onShutdown : Option (Unit → Option KError)) :
    KclReader Msg :=
  { onInitCallbackFn := onInit
    onCheckpointCallbackFn := onCheckpoint
    onShutdownCallbackFn := onShutdown
    msgBuffer := []
    ackPending := false
    listenerMessages := []
    stdout := [] }

/-- The source function `sendMessage`: marshal and write the message; both
errors are ignored and `nil` is returned. -/
def KclReader.sendMessage {Msg : Type} (r : KclReader Msg) (msg : ActionMessage Msg) :
    KclReader Msg × Option KError :=
  ({ r with stdout := r.stdout ++ [{ msg := msg, bufferLen := r.msgBuffer.length }] }, none)

/-- The source function `onInit`: the callback, if any, is called and its error
is dropped. -/
def KclReader.onInit {Msg : Type} (r : KclReader Msg) : Option KError :=
  match r.onInitCallbackFn with
  | some fn =>
    match fn () with
    | some _ => none
    | none => none
  | none => none

/-- The source function `onCheckpoint`. -/
def KclReader.onCheckpoint {Msg : Type} (r : KclReader Msg) : Option KError :=
  match r.onCheckpointCallbackFn with
  | some fn =>
    match fn () with
    | some _ => none
    | none => none
  | none => none

/-- The source function `onShutdown`. -/
def KclReader.onShutdown {Msg : Type} (r : KclReader Msg) : Option KError :=
  match r.onShutdownCallbackFn with
  | some fn =>
    match fn () with
    | some _ => none
    | none => none
  | none => none

/-- The loop of `processRecords` (lines 101-104), `i` iterations left: send
`msgBuffer[0]` on the listener channel and drop it from the buffer.  Indexing an
empty buffer is a panic. -/
def KclReader.drainLoop {Msg : Type} : Nat → KclReader Msg → Option (KclReader Msg)
  | 0, r => some r
  | i + 1, r =>
    match r.msgBuffer with
    | [] => none
    | m :: rest =>
      KclReader.drainLoop i
        { r with listenerMessages := r.listenerMessages ++ [m], msgBuffer := rest }

/-- The batch size of `processRecords` (lines 91-98).  The source takes the
minimum through `float64`, which is exact for buffer lengths below `2^53`. -/
def KclReader.batchSize {Msg : Type} (r : KclReader Msg) (numRecords : Int) : Nat :=
  if r.msgBuffer.length > 0 then
    if numRecords < 0 then r.msgBuffer.length
    else min r.msgBuffer.length numRecords.toNat
  else 0

/-- The source function `processRecords`: the new state and the returned pair
`(batchSize, nil)`. -/
def KclReader.processRecords {Msg : Type} (r : KclReader Msg) (numRecords : Int) :
    Option (KclReader Msg × (Int × Option KError)) :=
  let batchSize := r.batchSize numRecords
  match r.drainLoop batchSize with
  | none => none
  | some r1 =>
    let r2 :=
      if r1.msgBuffer.length == 0 && r1.ackPending then
        (r1.sendMessage (NewStatusMessage ActionType.ProcessRecords)).1
      else r1
    some (r2, ((batchSize : Int), none))

/-- The source function `GetRecord`. -/
def KclReader.GetRecord {Msg : Type} (r : KclReader Msg) :
    Option (KclReader Msg × (Int × Option KError)) :=
  r.processRecords 1

/-- The source function `GetRecords`. -/
def KclReader.GetRecords {Msg : Type} (r : KclReader Msg) :
    Option (KclReader Msg × (Int × Option KError)) :=
  r.processRecords (-1)

/-- The body of the scan loop of `processAction` for one decoded action message
(the `switch`, lines 129-153).  The goroutine started for `ProcessRecords` is
taken to run to completion before the next step. -/
def KclReader.handleAction {Msg : Type} (r : KclReader Msg) (actionMessage : ActionMessage Msg) :
    KclReader Msg :=
  match actionMessage.Action with
  | ActionType.Initialize =>
    let _ := r.onInit
    (r.sendMessage (NewStatusMessage ActionType.Initialize)).1
  | ActionType.Checkpoint =>
    let _ := r.onCheckpoint
    (r.sendMessage (NewStatusMessage ActionType.Checkpoint)).1
  | ActionType.Shutdown =>
    let _ := r.onShutdown
    (r.sendMessage (NewStatusMessage ActionType.Shutdown)).1
  | ActionType.ProcessRecords =>
    { r with msgBuffer := r.msgBuffer ++ actionMessage.Records, ackPending := true }
  | _ => r

/-- The source function `processAction` on the lines left to scan, each given
as the value of `actionMessage` after decoding or as the decoding error: a
decoding error is returned at once, the end of the input returns `nil`.  The
reader is associated with a listener, so `ensureClient` succeeds. -/
def KclReader.processAction {Msg : Type} (r : KclReader Msg) :
    List (Except KError (ActionMessage Msg)) → KclReader Msg × Option KError
  | [] => (r, none)
  | Except.error err :: _ => (r, some err)
  | Except.ok actionMessage :: rest => KclReader.processAction (r.handleAction actionMessage) rest

/-- What can happen to a bridge: an action message is read, or the listener
pulls one record or all records. -/
inductive Op (Msg : Type) where
  | action (a : ActionMessage Msg)
  | pullOne
  | pullAll

/-- One operation on the bridge. -/
def KclReader.step {Msg : Type} (r : KclReader Msg) : Op Msg → Option (KclReader Msg)
  | Op.action a => some (r.handleAction a)
  | Op.pullOne => r.GetRecord.map Prod.fst
  | Op.pullAll => r.GetRecords.map Prod.fst

/-- A sequence of operations on the bridge, in order. -/
def KclReader.run {Msg : Type} (r : KclReader Msg) : List (Op Msg) → Option (KclReader Msg)
  | [] => some r
  | op :: ops =>
    match r.step op with
    | none => none
    | some r1 => KclReader.run r1 ops

/-- The `n`-fold repetition of `GetRecord`. -/
def KclReader.pullOneTimes {Msg : Type} : Nat → KclReader Msg → Option (KclReader Msg)
  | 0, r => some r
  | n + 1, r =>
    match r.GetRecord with
    | none => none
    | some (r1, _) => KclReader.pullOneTimes n r1

/-- The acknowledgment of a `ProcessRecords` action. -/
def processRecordsAck {Msg : Type} : ActionMessage Msg :=
  NewStatusMessage ActionType.ProcessRecords

/-- What of a state the properties below speak about. -/
def KclReader.view {Msg : Type} (r : KclReader Msg) :
    List Msg × Bool × List Msg × List (Emission Msg) :=
  (r.msgBuffer, r.ackPending, r.listenerMessages, r.stdout)

/-- The state after the first `k` buffered records have been sent on the listener
channel, in order. -/
def KclReader.drained {Msg : Type} (r : KclReader Msg) (k : Nat) : KclReader Msg :=
  { r with
    listenerMessages := r.listenerMessages ++ r.msgBuffer.take k
    msgBuffer := r.msgBuffer.drop k }

/-- Every `ProcessRecords` acknowledgment in the output was written while the
buffer was empty. -/
def KclReader.AckGated {Msg : Type} (r : KclReader Msg) : Prop :=
  ∀ e ∈ r.stdout, e.msg = processRecordsAck → e.bufferLen = 0

/-! ## Lemmas on the shard map -/

theorem ShardMap.has_iff (m : ShardMap) (k : String) :
    m.has k = true ↔ k ∈ m.map Prod.fst := by
  unfold ShardMap.has
  simp only [List.any_eq_true, List.mem_map, beq_iff_eq]

/-- Marking one id: the guarded assignment `if _, ok := m[k]; ok { m[k] = true }`
turns on the flag of the entry of `k`, if there is one, and changes nothing else. -/
theorem mark_eq_map (m : ShardMap) (k : String) :
    (if m.has k then m.put k true else m) = m.map (fun e => (e.1, e.2 || e.1 == k)) := by
  by_cases h : m.has k = true
  · simp only [h, if_true, ShardMap.put]
    apply List.map_congr_left
    rintro ⟨a, b⟩ _
    by_cases hk : a = k
    · subst hk
      simp
    · simp [hk]
  · simp only [h, if_false]
    have hno : ∀ e ∈ m, ¬ e.1 = k := by
      intro e he hk
      apply h
      rw [ShardMap.has_iff]
      exact List.mem_map.2 ⟨e, he, hk⟩
    symm
    calc m.map (fun e => (e.1, e.2 || e.1 == k)) = m.map id := by
          apply List.map_congr_left
          rintro ⟨a, b⟩ he
          have := hno (a, b) he
          simp only [] at this
          simp [this]
      _ = m := List.map_id m

theorem markStep_eq_map (m : ShardMap) (s : Shard) :
    markStep m s = m.map (fun e => (e.1, e.2 || refersTo s e.1)) := by
  obtain ⟨sid, p, a⟩ := s
  have hbeq : ∀ (x y : String), ((some x : Option String) == some y) = (y == x) := by
    intro x y
    by_cases h : x = y
    · subst h; simp
    · have h2 : ¬ y = x := fun e => h e.symm
      simp [h, h2]
  have hnone : ∀ x : String, ((none : Option String) == some x) = false := fun _ => rfl
  cases p <;> cases a <;>
    simp only [markStep, mark_eq_map, refersTo, List.map_map, Function.comp_def, Bool.or_assoc,
      hbeq, hnone, Bool.false_or, Bool.or_false]
  symm
  calc m.map (fun e => (e.1, e.2)) = m.map id := rfl
    _ = m := List.map_id m

theorem foldl_markStep (shards : List Shard) (m : ShardMap) :
    shards.foldl markStep m = m.map (fun e => (e.1, e.2 || referenced shards e.1)) := by
  induction shards generalizing m with
  | nil => simp [referenced]
  | cons s rest ih =>
    rw [List.foldl_cons, ih, markStep_eq_map, List.map_map]
    apply List.map_congr_left
    intro e _
    simp [referenced, Bool.or_assoc]

theorem countOpen_foldl (m : ShardMap) (c : Int) :
    m.foldl (fun openShardCount e => if e.2 then openShardCount - 1 else openShardCount) c
      = c - ((m.filter (fun e => e.2)).length : Int) := by
  induction m generalizing c with
  | nil => simp
  | cons e rest ih =>
    rw [List.foldl_cons, ih]
    cases h : e.2
    · simp [h]
    · simp [h]
      omega

theorem countOpen_eq (m : ShardMap) :
    countOpen m = (m.length : Int) - ((m.filter (fun e => e.2)).length : Int) :=
  countOpen_foldl m _

/-- What the first loop builds from an accumulator with distinct keys and all
flags off: again distinct keys, all flags off, and the keys are the old ones
together with the ids of the descriptors. -/
theorem foldl_collectStep (shards : List Shard) (m : ShardMap)
    (hnd : (m.map Prod.fst).Nodup) (hoff : ∀ e ∈ m, e.2 = false) :
    ((shards.foldl collectStep m).map Prod.fst).Nodup
      ∧ (∀ e ∈ shards.foldl collectStep m, e.2 = false)
      ∧ ∀ k, k ∈ (shards.foldl collectStep m).map Prod.fst
          ↔ k ∈ m.map Prod.fst ∨ k ∈ shardIds shards := by
  induction shards generalizing m with
  | nil => exact ⟨hnd, hoff, fun k => by simp [shardIds]⟩
  | cons s rest ih =>
    rw [List.foldl_cons]
    obtain ⟨sid, p, a⟩ := s
    cases sid with
    | none =>
      have := ih m hnd hoff
      simpa [collectStep, shardIds] using this
    | some id =>
      by_cases h : m.has id = true
      · have hmem := (ShardMap.has_iff m id).1 h
        have := ih m hnd hoff
        simp only [collectStep, h, Bool.not_true, Bool.false_eq_true, if_false]
        refine ⟨this.1, this.2.1, fun k => ?_⟩
        rw [this.2.2 k]
        have hids : shardIds (⟨some id, p, a⟩ :: rest) = id :: shardIds rest := by
          simp [shardIds]
        rw [hids, List.mem_cons]
        constructor
        · rintro (hk | hk)
          · exact Or.inl hk
          · exact Or.inr (Or.inr hk)
        · rintro (hk | hk | hk)
          · exact Or.inl hk
          · exact Or.inl (hk ▸ hmem)
          · exact Or.inr hk
      · have hnot : id ∉ m.map Prod.fst := fun hm => h ((ShardMap.has_iff m id).2 hm)
        have hf : m.has id = false := by simpa using h
        have hstep : collectStep m ⟨some id, p, a⟩ = m ++ [(id, false)] := by
          simp [collectStep, ShardMap.put, hf]
        rw [hstep]
        have hnd2 : ((m ++ [(id, false)]).map Prod.fst).Nodup := by
          rw [List.map_append, List.nodup_append]
          refine ⟨hnd, by simp, ?_⟩
          intro x hx hx2
          simp only [List.map_cons, List.map_nil, List.mem_singleton] at hx2
          exact hnot (hx2 ▸ hx)
        have hoff2 : ∀ e ∈ m ++ [(id, false)], e.2 = false := by
          intro e he
          rcases List.mem_append.1 he with he | he
          · exact hoff e he
          · simp only [List.mem_singleton] at he
            rw [he]
        have := ih (m ++ [(id, false)]) hnd2 hoff2
        refine ⟨this.1, this.2.1, fun k => ?_⟩
        rw [this.2.2 k]
        have hids : shardIds (⟨some id, p, a⟩ :: rest) = id :: shardIds rest := by
          simp [shardIds]
        rw [hids]
        simp only [List.mem_cons, List.map_append, List.mem_append, List.map_cons, List.map_nil,
          List.mem_singleton]
        tauto

/-- The count computed by the three loops, in closed form. -/
theorem openCount_closed_form (shards : List Shard) :
    countOpen (shards.foldl markStep (shards.foldl collectStep []))
      = ((distinctIds shards).length : Int)
        - (((distinctIds shards).filter (referenced shards)).length : Int) := by
  obtain ⟨hnd, hoff, hmem⟩ := foldl_collectStep shards [] (by simp) (by simp)
  set m0 := shards.foldl collectStep [] with hm0
  have hperm : (m0.map Prod.fst).Perm (distinctIds shards) := by
    apply (List.perm_ext_iff_of_nodup hnd (List.nodup_dedup _)).2
    intro k
    rw [hmem k, List.mem_dedup]
    simp
  rw [foldl_markStep, countOpen_eq, List.length_map, List.filter_map, List.length_map]
  have hfil : m0.filter ((fun e : String × Bool => e.2) ∘
      fun e => (e.1, e.2 || referenced shards e.1))
      = m0.filter (fun e => referenced shards e.1) := by
    apply List.filter_congr
    intro e he
    simp [hoff e he]
  have hlen : (m0.filter (fun e => referenced shards e.1)).length
      = ((m0.map Prod.fst).filter (referenced shards)).length := by
    rw [List.filter_map, List.length_map]
    rfl
  rw [hfil, hlen, (hperm.filter _).length_eq, ← hperm.length_eq, List.length_map]

theorem getConcurrencyMultiplier_describeOk (shards : List Shard) :
    getConcurrencyMultiplier (describeOk shards) none
      = (((distinctIds shards).length : Int)
          - (((distinctIds shards).filter (referenced shards)).length : Int), none) := by
  simp only [getConcurrencyMultiplier, describeOk, openCount_closed_form]

theorem shardIds_dropAbsentRefs (shards : List Shard) :
    shardIds (dropAbsentRefs shards) = shardIds shards := by
  simp [shardIds, dropAbsentRefs, List.filterMap_map, Function.comp_def]

theorem referenced_dropAbsentRefs (shards : List Shard) (id : String)
    (hid : id ∈ shardIds shards) :
    referenced (dropAbsentRefs shards) id = referenced shards id := by
  have hopt : ∀ o : Option String,
      (o.filter (fun p => decide (p ∈ shardIds shards)) == some id) = (o == some id) := by
    intro o
    cases o with
    | none => rfl
    | some x =>
      by_cases hx : x = id
      · subst hx
        simp [Option.filter, hid]
      · by_cases hm : x ∈ shardIds shards
        · simp [Option.filter, hm]
        · simp [Option.filter, hm, hx]
  simp only [referenced, dropAbsentRefs, List.any_map, Function.comp_def, refersTo, hopt]

theorem zero_count_iff (shards : List Shard) :
    (((distinctIds shards).length : Int)
        - (((distinctIds shards).filter (referenced shards)).length : Int) = 0)
      ↔ ∀ id ∈ shardIds shards, referenced shards id = true := by
  have hle := List.length_filter_le (referenced shards) (distinctIds shards)
  have hiff := @List.filter_length_eq_length _ (referenced shards) (distinctIds shards)
  constructor
  · intro h id hid
    have hlen : ((distinctIds shards).filter (referenced shards)).length
        = (distinctIds shards).length := by omega
    exact hiff.1 hlen id (by unfold distinctIds; exact List.mem_dedup.2 hid)
  · intro h
    have hlen : ((distinctIds shards).filter (referenced shards)).length
        = (distinctIds shards).length :=
      hiff.2 (fun id hid => h id (by unfold distinctIds at hid; exact List.mem_dedup.1 hid))
    omega

/-! ## Shard topology: the claims -/

/-- C1, as stated, fails: a single descriptor whose parent id is its own shard id
is counted as closed by the code (result 0), whereas no other descriptor of the
list refers to it, so the stated formula gives 1. -/
theorem C1_counterexample_self_parent :
    getConcurrencyMultiplier (describeOk [⟨some "A", some "A", none⟩]) none = (0, none)
      ∧ openCountByAnother [⟨some "A", some "A", none⟩] = 1
      ∧ getConcurrencyMultiplier (describeOk [⟨some "A", some "A", none⟩]) none
          ≠ (openCountByAnother [⟨some "A", some "A", none⟩], none) := by
  decide

/-- C1, amended: for every descriptor list returned by describe-stream,
`getConcurrencyMultiplier` returns without error the number of distinct shard
ids present minus the number of those ids named as parent or adjacent parent by
some descriptor of the list (the descriptor carrying the id included); removing
every reference to an id that is absent from the list leaves the result
unchanged. -/
theorem C1_open_shard_count (shards : List Shard) :
    getConcurrencyMultiplier (describeOk shards) none
        = (((distinctIds shards).length : Int)
            - (((distinctIds shards).filter (referenced shards)).length : Int), none)
      ∧ getConcurrencyMultiplier (describeOk (dropAbsentRefs shards)) none
          = getConcurrencyMultiplier (describeOk shards) none := by
  refine ⟨getConcurrencyMultiplier_describeOk shards, ?_⟩
  rw [getConcurrencyMultiplier_describeOk, getConcurrencyMultiplier_describeOk]
  have hd : distinctIds (dropAbsentRefs shards) = distinctIds shards := by
    unfold distinctIds
    rw [shardIds_dropAbsentRefs]
  have hf : (distinctIds shards).filter (referenced (dropAbsentRefs shards))
      = (distinctIds shards).filter (referenced shards) := by
    apply List.filter_congr
    intro id hid
    apply referenced_dropAbsentRefs
    unfold distinctIds at hid
    exact List.mem_dedup.1 hid
  rw [hd, hf]

/-- C1, the example of the specification: A without parent, B and C with parent A
give 2; and a parent id that is absent from the list closes nothing. -/
theorem C1_example_split :
    getConcurrencyMultiplier (describeOk
        [⟨some "A", none, none⟩, ⟨some "B", some "A", none⟩, ⟨some "C", some "A", none⟩]) none
      = (2, none)
      ∧ getConcurrencyMultiplier (describeOk
        [⟨some "B", some "A", none⟩, ⟨some "C", some "A", some "Z"⟩]) none = (2, none) := by
  decide

/-- C8, as stated, fails: a descriptor without a shard id is skipped, not
reported, and the result is a count of zero without error for a descriptor set
that is not empty. -/
theorem C8_counterexample_missing_shard_id :
    getConcurrencyMultiplier (describeOk [⟨none, none, none⟩]) none = (0, none)
      ∧ ([⟨none, none, none⟩] : List Shard) ≠ [] := by
  decide

/-- C8, amended: a nil response and a nil stream description make
`getConcurrencyMultiplier` return count 0 with the errors
`ErrNilDescribeStreamResponse` and `ErrNilStreamDescription`, which differ; an
error of the describe call is returned as it is; a descriptor list never yields
an error, whether or not its descriptors carry a shard id; the empty descriptor
set gives zero without error; and zero without error is returned exactly when
every shard id present is named as parent or adjacent parent in the list. -/
theorem C8_missing_topology_errors :
    getConcurrencyMultiplier none none = (0, some KError.ErrNilDescribeStreamResponse)
      ∧ getConcurrencyMultiplier (some { StreamDescription := none }) none
          = (0, some KError.ErrNilStreamDescription)
      ∧ KError.ErrNilDescribeStreamResponse ≠ KError.ErrNilStreamDescription
      ∧ (∀ (resp : Option DescribeStreamOutput) (e : KError),
          getConcurrencyMultiplier resp (some e) = (0, some e))
      ∧ (∀ shards : List Shard, (getConcurrencyMultiplier (describeOk shards) none).2 = none)
      ∧ getConcurrencyMultiplier (describeOk []) none = (0, none)
      ∧ (∀ shards : List Shard,
          getConcurrencyMultiplier (describeOk shards) none = (0, none)
            ↔ ∀ id ∈ shardIds shards, referenced shards id = true) := by
  refine ⟨rfl, rfl, by decide, fun _ _ => rfl, fun shards => ?_, by decide, fun shards => ?_⟩
  · rw [getConcurrencyMultiplier_describeOk]
  · rw [getConcurrencyMultiplier_describeOk, ← zero_count_iff]
    constructor
    · intro h
      exact congrArg Prod.fst h
    · intro h
      rw [h]

/-! ## The multilang bridge: lemmas -/

theorem KclReader.drainLoop_eq {Msg : Type} (k : Nat) (r : KclReader Msg)
    (hk : k ≤ r.msgBuffer.length) : r.drainLoop k = some (r.drained k) := by
  induction k generalizing r with
  | zero =>
    obtain ⟨a, b, c, buf, ack, lm, out⟩ := r
    simp [KclReader.drainLoop, KclReader.drained]
  | succ k ih =>
    obtain ⟨a, b, c, buf, ack, lm, out⟩ := r
    cases buf with
    | nil => simp at hk
    | cons m rest =>
      simp only [List.length_cons, Nat.add_le_add_iff_right] at hk
      simp only [KclReader.drainLoop]
      rw [ih _ hk]
      simp [KclReader.drained]

theorem KclReader.batchSize_le {Msg : Type} (r : KclReader Msg) (numRecords : Int) :
    r.batchSize numRecords ≤ r.msgBuffer.length := by
  unfold KclReader.batchSize
  split_ifs <;> omega

theorem KclReader.batchSize_neg {Msg : Type} (r : KclReader Msg) :
    r.batchSize (-1) = r.msgBuffer.length := by
  unfold KclReader.batchSize
  split_ifs with h <;> omega

theorem KclReader.batchSize_one {Msg : Type} (r : KclReader Msg) :
    r.batchSize 1 = min r.msgBuffer.length 1 := by
  unfold KclReader.batchSize
  split_ifs with h h2
  · omega
  · rfl
  · omega

/-- The source function `processRecords` in closed form: it never panics, it
moves the first `batchSize` records, and it writes the acknowledgment exactly
when the buffer is then empty and ack-pending is set. -/
theorem KclReader.processRecords_eq {Msg : Type} (r : KclReader Msg) (numRecords : Int) :
    r.processRecords numRecords
      = some (
          (if (r.drained (r.batchSize numRecords)).msgBuffer.length == 0
              && (r.drained (r.batchSize numRecords)).ackPending
            then ((r.drained (r.batchSize numRecords)).sendMessage processRecordsAck).1
            else r.drained (r.batchSize numRecords)),
          ((r.batchSize numRecords : Int), none)) := by
  unfold KclReader.processRecords
  simp only [KclReader.drainLoop_eq _ r (r.batchSize_le numRecords)]
  rfl

theorem KclReader.processRecords_stdout {Msg : Type} (r : KclReader Msg) (numRecords : Int) :
    ∃ r1, r.processRecords numRecords = some (r1, ((r.batchSize numRecords : Int), none))
      ∧ r1.msgBuffer = r.msgBuffer.drop (r.batchSize numRecords)
      ∧ r1.listenerMessages = r.listenerMessages ++ r.msgBuffer.take (r.batchSize numRecords)
      ∧ r1.ackPending = r.ackPending
      ∧ (r1.stdout = r.stdout
          ∨ (r1.stdout = r.stdout ++ [⟨processRecordsAck, 0⟩] ∧ r1.msgBuffer = []
              ∧ r.ackPending = true)) := by
  refine ⟨_, r.processRecords_eq numRecords, ?_⟩
  by_cases h : ((r.drained (r.batchSize numRecords)).msgBuffer.length == 0
      && (r.drained (r.batchSize numRecords)).ackPending) = true
  · rw [if_pos h]
    simp only [Bool.and_eq_true, beq_iff_eq] at h
    refine ⟨rfl, rfl, rfl, Or.inr ⟨?_, ?_, h.2⟩⟩
    · simp only [KclReader.sendMessage, h.1]
      rfl
    · exact List.length_eq_zero.1 h.1
  · rw [if_neg h]
    exact ⟨rfl, rfl, rfl, Or.inl rfl⟩

theorem KclReader.handleAction_stdout {Msg : Type} (r : KclReader Msg) (a : ActionMessage Msg) :
    (r.handleAction a).stdout = r.stdout
      ∨ ∃ t : ActionType, t ≠ ActionType.ProcessRecords
          ∧ (r.handleAction a).stdout = r.stdout ++ [⟨NewStatusMessage t, r.msgBuffer.length⟩] := by
  obtain ⟨act, rf, recs⟩ := a
  cases act
  · exact Or.inr ⟨ActionType.Initialize, by decide, rfl⟩
  · exact Or.inl rfl
  · exact Or.inr ⟨ActionType.Checkpoint, by decide, rfl⟩
  · exact Or.inr ⟨ActionType.Shutdown, by decide, rfl⟩
  · exact Or.inl rfl
  · exact Or.inl rfl

theorem KclReader.AckGated_step {Msg : Type} (r : KclReader Msg) (op : Op Msg)
    (hr : r.AckGated) : ∃ r1, r.step op = some r1 ∧ r1.AckGated := by
  have happend : ∀ (r1 : KclReader Msg) (e : Emission Msg),
      r1.stdout = r.stdout ++ [e] → (e.msg = processRecordsAck → e.bufferLen = 0) →
      r1.AckGated := by
    intro r1 e h1 h2 x hx
    rw [h1, List.mem_append, List.mem_singleton] at hx
    rcases hx with hx | hx
    · exact hr x hx
    · rw [hx]
      exact h2
  have hsame : ∀ r1 : KclReader Msg, r1.stdout = r.stdout → r1.AckGated := by
    intro r1 h1 x hx
    rw [h1] at hx
    exact hr x hx
  have hpull : ∀ n : Int, ∃ r1, (r.processRecords n).map Prod.fst = some r1 ∧ r1.AckGated := by
    intro n
    obtain ⟨r1, h1, _, _, _, h2⟩ := r.processRecords_stdout n
    refine ⟨r1, by rw [h1]; rfl, ?_⟩
    rcases h2 with h2 | ⟨h2, _, _⟩
    · exact hsame r1 h2
    · exact happend r1 _ h2 (fun _ => rfl)
  cases op with
  | action a =>
    refine ⟨r.handleAction a, rfl, ?_⟩
    rcases r.handleAction_stdout a with h | ⟨t, ht, h⟩
    · exact hsame _ h
    · refine happend _ _ h (fun hm => absurd ?_ ht)
      have := congrArg ActionMessage.ResponseFor hm
      simp only [NewStatusMessage, processRecordsAck] at this
      exact Option.some.inj this
  | pullOne => exact hpull 1
  | pullAll => exact hpull (-1)

theorem KclReader.AckGated_run {Msg : Type} (ops : List (Op Msg)) (r : KclReader Msg)
    (hr : r.AckGated) : ∃ r1, r.run ops = some r1 ∧ r1.AckGated := by
  induction ops generalizing r with
  | nil => exact ⟨r, rfl, hr⟩
  | cons op ops ih =>
    obtain ⟨r1, h1, hg⟩ := r.AckGated_step op hr
    obtain ⟨r2, h2, hg2⟩ := ih r1 hg
    exact ⟨r2, by simp only [KclReader.run, h1, h2], hg2⟩

theorem take_one_append_take {α : Type} (l : List α) (n : Nat) :
    l.take 1 ++ (l.drop 1).take n = l.take (n + 1) := by
  cases l <;> simp

theorem KclReader.pullOneTimes_eq {Msg : Type} (n : Nat) (r : KclReader Msg)
    (hn : n ≤ r.msgBuffer.length) :
    ∃ r1, r.pullOneTimes n = some r1
      ∧ r1.listenerMessages = r.listenerMessages ++ r.msgBuffer.take n
      ∧ r1.msgBuffer = r.msgBuffer.drop n := by
  induction n generalizing r with
  | zero => exact ⟨r, rfl, by simp, by simp⟩
  | succ n ih =>
    obtain ⟨r1, h1, hbuf, hlm, _, _⟩ := r.processRecords_stdout 1
    have hb : r.batchSize 1 = 1 := by
      rw [r.batchSize_one]
      omega
    rw [hb] at h1 hbuf hlm
    have hlen : n ≤ r1.msgBuffer.length := by
      rw [hbuf, List.length_drop]
      omega
    obtain ⟨r2, h2, hlm2, hbuf2⟩ := ih r1 hlen
    refine ⟨r2, ?_, ?_, ?_⟩
    · simp only [KclReader.pullOneTimes, KclReader.GetRecord, h1, h2]
    · rw [hlm2, hlm, hbuf, List.append_assoc, take_one_append_take]
    · rw [hbuf2, hbuf, List.drop_drop, Nat.add_comm]

/-! ## The multilang bridge: the claims -/

/-- C2, evaluated on the code: three records are delivered; one `GetRecord` and
one `GetRecords` forward them and write one acknowledgment, but ack-pending is
still set afterwards, and the next `GetRecord` on the empty buffer writes a
second acknowledgment for the same batch. -/
theorem C2_second_ack_for_one_batch :
    ((NewKclReader none none none : KclReader Nat).run
        [Op.action ⟨ActionType.ProcessRecords, none, [10, 20, 30]⟩, Op.pullOne, Op.pullAll]).map
        KclReader.view
      = some ([], true, [10, 20, 30], [⟨processRecordsAck, 0⟩])
    ∧ ((NewKclReader none none none : KclReader Nat).run
        [Op.action ⟨ActionType.ProcessRecords, none, [10, 20, 30]⟩, Op.pullOne, Op.pullAll,
          Op.pullOne]).map KclReader.view
      = some ([], true, [10, 20, 30], [⟨processRecordsAck, 0⟩, ⟨processRecordsAck, 0⟩]) := by
  constructor <;> decide

/-- C3, evaluated on the code: a new bridge reads a `ProcessRecords` action
delivering records 1 and 2, which sets ack-pending, and then, nothing having
been pulled, a second `ProcessRecords` action delivering record 3: the second
batch is appended to the buffer, nothing is written, and `processAction`
returns no error. -/
theorem C3_second_batch_is_merged :
    (fun res : KclReader Nat × Option KError => (res.1.view, res.2))
        ((NewKclReader none none none : KclReader Nat).processAction
          [Except.ok ⟨ActionType.ProcessRecords, none, [1, 2]⟩])
      = (([1, 2], true, [], []), none)
    ∧ (fun res : KclReader Nat × Option KError => (res.1.view, res.2))
        ((NewKclReader none none none : KclReader Nat).processAction
          [Except.ok ⟨ActionType.ProcessRecords, none, [1, 2]⟩,
            Except.ok ⟨ActionType.ProcessRecords, none, [3]⟩])
      = (([1, 2, 3], true, [], []), none) := by
  constructor <;> decide

/-- C4: a pull operation, from any state and with any `numRecords`, returns and
writes either nothing or a single `ProcessRecords` acknowledgment, the latter
only with the buffer empty at that moment (and empty afterwards); and after any
sequence of operations on a new bridge, every `ProcessRecords` acknowledgment in
the output was written while the buffer was empty. -/
theorem C4_ack_only_when_buffer_empty {Msg : Type} :
    (∀ (r : KclReader Msg) (numRecords : Int),
        ∃ r1, r.processRecords numRecords = some (r1, ((r.batchSize numRecords : Int), none))
          ∧ (r1.stdout = r.stdout
              ∨ (r1.stdout = r.stdout ++ [⟨processRecordsAck, 0⟩] ∧ r1.msgBuffer = [])))
      ∧ (∀ (onInit onCheckpoint onShutdown : Option (Unit → Option KError))
          (ops : List (Op Msg)),
          ∃ r1, (NewKclReader onInit onCheckpoint onShutdown : KclReader Msg).run ops = some r1
            ∧ ∀ e ∈ r1.stdout, e.msg = processRecordsAck → e.bufferLen = 0) := by
  constructor
  · intro r numRecords
    obtain ⟨r1, h1, _, _, _, h2⟩ := r.processRecords_stdout numRecords
    refine ⟨r1, h1, ?_⟩
    rcases h2 with h2 | ⟨h2, h3, _⟩
    · exact Or.inl h2
    · exact Or.inr ⟨h2, h3⟩
  · intro onInit onCheckpoint onShutdown ops
    have h0 : (NewKclReader onInit onCheckpoint onShutdown : KclReader Msg).AckGated := by
      intro e he
      simp [NewKclReader] at he
    exact KclReader.AckGated_run ops _ h0

/-- C7: `GetRecords` forwards the whole buffer in order, returns its length and
leaves it empty; `GetRecord` on a buffer `m :: rest` forwards `m`, returns 1 and
leaves `rest`; on an empty buffer it forwards nothing and returns 0; and as many
`GetRecord` calls as there are buffered records forward the same records in the
same order and leave the same, empty, buffer as one `GetRecords` call. -/
theorem C7_draining_composable {Msg : Type} (r : KclReader Msg) :
    (∃ r1, r.GetRecords = some (r1, ((r.msgBuffer.length : Int), none))
        ∧ r1.listenerMessages = r.listenerMessages ++ r.msgBuffer ∧ r1.msgBuffer = [])
      ∧ (∀ (m : Msg) (rest : List Msg),
          ∃ r1, ({ r with msgBuffer := m :: rest }).GetRecord = some (r1, (1, none))
            ∧ r1.listenerMessages = r.listenerMessages ++ [m] ∧ r1.msgBuffer = rest)
      ∧ (∃ r1, ({ r with msgBuffer := [] }).GetRecord = some (r1, (0, none))
          ∧ r1.listenerMessages = r.listenerMessages ∧ r1.msgBuffer = [])
      ∧ (∃ r1 r2, r.pullOneTimes r.msgBuffer.length = some r1
          ∧ r.GetRecords = some (r2, ((r.msgBuffer.length : Int), none))
          ∧ r1.listenerMessages = r2.listenerMessages
          ∧ r1.msgBuffer = r2.msgBuffer
          ∧ r1.listenerMessages = r.listenerMessages ++ r.msgBuffer
          ∧ r1.msgBuffer = []) := by
  have hall : ∃ r1, r.GetRecords = some (r1, ((r.msgBuffer.length : Int), none))
      ∧ r1.listenerMessages = r.listenerMessages ++ r.msgBuffer ∧ r1.msgBuffer = [] := by
    obtain ⟨r1, h1, hbuf, hlm, _, _⟩ := r.processRecords_stdout (-1)
    rw [r.batchSize_neg] at h1 hbuf hlm
    exact ⟨r1, h1, by rw [hlm, List.take_length], by rw [hbuf, List.drop_length]⟩
  refine ⟨hall, ?_, ?_, ?_⟩
  · intro m rest
    obtain ⟨r1, h1, hbuf, hlm, _, _⟩ :=
      ({ r with msgBuffer := m :: rest } : KclReader Msg).processRecords_stdout 1
    have hb : ({ r with msgBuffer := m :: rest } : KclReader Msg).batchSize 1 = 1 := by
      rw [KclReader.batchSize_one]
      simp
    rw [hb] at h1 hbuf hlm
    exact ⟨r1, h1, hlm, hbuf⟩
  · obtain ⟨r1, h1, hbuf, hlm, _, _⟩ :=
      ({ r with msgBuffer := [] } : KclReader Msg).processRecords_stdout 1
    have hb : ({ r with msgBuffer := [] } : KclReader Msg).batchSize 1 = 0 := by
      rw [KclReader.batchSize_one]
      simp
    rw [hb] at h1 hbuf hlm
    exact ⟨r1, h1, by simpa using hlm, by simpa using hbuf⟩
  · obtain ⟨r2, h2, hlm2, hbuf2⟩ := hall
    obtain ⟨r1, h1, hlm1, hbuf1⟩ := r.pullOneTimes_eq r.msgBuffer.length (Nat.le_refl _)
    rw [List.take_length] at hlm1
    rw [List.drop_length] at hbuf1
    exact ⟨r1, r2, h1, h2, by rw [hlm1, hlm2], by rw [hbuf1, hbuf2], hlm1, hbuf1⟩

/-- C10: for an `Initialize`, `Checkpoint` or `Shutdown` action, whatever the
three callbacks of the bridge are (absent, returning nil or returning an error),
handling the action writes exactly one message, the status message built for
that same action, whose `responseFor` is that action, and leaves the message
buffer, the ack-pending flag and the forwarded records unchanged;
`processAction` on that single line does exactly this and returns no error. -/
theorem C10_lifecycle_ack {Msg : Type} (r : KclReader Msg) (a : ActionMessage Msg)
    (ha : a.Action = ActionType.Initialize ∨ a.Action = ActionType.Checkpoint
      ∨ a.Action = ActionType.Shutdown) :
    (r.handleAction a).stdout
        = r.stdout ++ [⟨NewStatusMessage a.Action, r.msgBuffer.length⟩]
      ∧ (NewStatusMessage a.Action : ActionMessage Msg).Action = ActionType.Status
      ∧ (NewStatusMessage a.Action : ActionMessage Msg).ResponseFor = some a.Action
      ∧ (r.handleAction a).msgBuffer = r.msgBuffer
      ∧ (r.handleAction a).ackPending = r.ackPending
      ∧ (r.handleAction a).listenerMessages = r.listenerMessages
      ∧ r.processAction [Except.ok a] = (r.handleAction a, none) := by
  obtain ⟨act, rf, recs⟩ := a
  simp only at ha
  rcases ha with h | h | h <;> subst h <;> exact ⟨rfl, rfl, rfl, rfl, rfl, rfl, rfl⟩

/-- C10 at a concrete bridge whose init callback returns an error. -/
theorem C10_lifecycle_ack_witness :
    ((⟨ActionType.Initialize, none, []⟩ : ActionMessage Nat).Action = ActionType.Initialize
        ∨ (⟨ActionType.Initialize, none, []⟩ : ActionMessage Nat).Action = ActionType.Checkpoint
        ∨ (⟨ActionType.Initialize, none, []⟩ : ActionMessage Nat).Action = ActionType.Shutdown)
      ∧ ((NewKclReader (some (fun _ => some (KError.api "init failed"))) none none :
            KclReader Nat).handleAction ⟨ActionType.Initialize, none, []⟩).stdout
          = [⟨{ Action := ActionType.Status, ResponseFor := some ActionType.Initialize,
                Records := [] }, 0⟩] :=
  ⟨Or.inl rfl,
    (C10_lifecycle_ack
      (NewKclReader (some (fun _ => some (KError.api "init failed"))) none none : KclReader Nat)
      ⟨ActionType.Initialize, none, []⟩ (Or.inl rfl)).1⟩

/-! ## Batch dispatch: lemmas -/

theorem applyOutcome_counts (st st1 : PutState) (idx : Nat) (record : PutRecordsResultEntry)
    (h : applyOutcome st idx record = some st1) :
    idx < st.messages.length
      ∧ st1.messages.length = st.messages.length
      ∧ st1.stats.sentSuccess + st1.stats.sentFailed
          = st.stats.sentSuccess + st.stats.sentFailed + 1 := by
  unfold applyOutcome at h
  cases hget : st.messages[idx]? with
  | none => simp [hget] at h
  | some o =>
    have hidx : idx < st.messages.length := by
      by_contra hc
      rw [List.getElem?_eq_none (by omega)] at hget
      cases hget
    cases o with
    | none => simp [hget] at h
    | some msg =>
      simp only [hget] at h
      by_cases hs : (record.SequenceNumber.isSome && record.ShardId.isSome) = true
      · rw [if_pos hs] at h
        cases h
        refine ⟨hidx, by simp, ?_⟩
        simp only [Stats.AddSentSuccess]
        omega
      · rw [if_neg hs] at h
        cases h
        refine ⟨hidx, by simp, ?_⟩
        split_ifs <;>
          simp only [Stats.AddSentFailed, Stats.AddProvisionedThroughputExceeded] <;> omega

theorem outcomeLoop_counts (records : List PutRecordsResultEntry) (idx : Nat) (st st1 : PutState)
    (h : outcomeLoop idx records st = some st1) :
    records.length ≤ st.messages.length - idx
      ∧ st1.messages.length = st.messages.length
      ∧ st1.stats.sentSuccess + st1.stats.sentFailed
          = st.stats.sentSuccess + st.stats.sentFailed + records.length := by
  induction records generalizing idx st with
  | nil =>
    simp only [outcomeLoop] at h
    cases h
    simp
  | cons record rest ih =>
    simp only [outcomeLoop] at h
    cases hstep : applyOutcome st idx record with
    | none => simp [hstep] at h
    | some st2 =>
      simp only [hstep] at h
      obtain ⟨h1, h2, h3⟩ := applyOutcome_counts st st2 idx record hstep
      obtain ⟨h4, h5, h6⟩ := ih (idx + 1) st2 h
      simp only [List.length_cons]
      refine ⟨by omega, by omega, by omega⟩

theorem applyOutcome_present (st : PutState) (idx : Nat) (record : PutRecordsResultEntry)
    (msg : Message) (hget : st.messages[idx]? = some (some msg)) :
    applyOutcome st idx record
      = some
          { messages := st.messages.set idx (some (annotate msg record))
            stats := tally st.stats [record]
            fnCalls := st.fnCalls ++ failedCalls [msg] [record] } := by
  unfold applyOutcome
  simp only [hget]
  by_cases hs : (record.SequenceNumber.isSome && record.ShardId.isSome) = true
  · have hs2 : isSuccess record = true := hs
    rw [if_pos hs]
    simp [annotate, tally, failedCalls, hs2, isThroughputExceeded, Stats.AddSentSuccess]
  · have hs2 : isSuccess record = false := by
      simpa [isSuccess] using hs
    rw [if_neg hs]
    by_cases hp : (StringValue record.ErrorCode
        == ErrCodeProvisionedThroughputExceededException) = true
    · simp [annotate, tally, failedCalls, hs2, isThroughputExceeded, hp, Stats.AddSentFailed,
        Stats.AddProvisionedThroughputExceeded]
    · simp [annotate, tally, failedCalls, hs2, isThroughputExceeded, hp, Stats.AddSentFailed]

theorem tally_cons (stats : Stats) (record : PutRecordsResultEntry)
    (rest : List PutRecordsResultEntry) :
    tally (tally stats [record]) rest = tally stats (record :: rest) := by
  simp only [tally, List.countP_cons, List.countP_nil, Nat.zero_add, Nat.add_assoc,
    Nat.add_comm (List.countP _ rest)]

theorem failedCalls_cons (msg : Message) (msgs : List Message) (record : PutRecordsResultEntry)
    (rest : List PutRecordsResultEntry) :
    failedCalls (msg :: msgs) (record :: rest)
      = failedCalls [msg] [record] ++ failedCalls msgs rest := by
  by_cases h : isSuccess record = true <;> simp [failedCalls, h]

/-- The loop over the outcomes on a batch without nil records, once the records
`done` before index `done.length` have been handled: the next records are
annotated one by one, in order. -/
theorem outcomeLoop_present (records : List PutRecordsResultEntry) (done todo : List Message)
    (st : PutState) (hmsgs : st.messages = done.map some ++ todo.map some)
    (hlen : records.length ≤ todo.length) :
    outcomeLoop done.length records st
      = some
          { messages := done.map some ++ (List.zipWith annotate todo records).map some
              ++ (todo.drop records.length).map some
            stats := tally st.stats records
            fnCalls := st.fnCalls ++ failedCalls todo records } := by
  induction records generalizing done todo st with
  | nil =>
    obtain ⟨msgs, stats, calls⟩ := st
    simp only at hmsgs
    simp [outcomeLoop, tally, failedCalls, hmsgs]
  | cons record rest ih =>
    cases todo with
    | nil => simp at hlen
    | cons msg msgs =>
      simp only [List.length_cons, Nat.add_le_add_iff_right] at hlen
      have hget : st.messages[done.length]? = some (some msg) := by
        rw [hmsgs, List.getElem?_append_right (by simp)]
        simp
      have hset : st.messages.set done.length (some (annotate msg record))
          = (done ++ [annotate msg record]).map some ++ msgs.map some := by
        rw [hmsgs, List.set_append_right _ _ (by simp)]
        simp
      simp only [outcomeLoop, applyOutcome_present st done.length record msg hget]
      have := ih (done ++ [annotate msg record]) msgs
        { messages := st.messages.set done.length (some (annotate msg record))
          stats := tally st.stats [record]
          fnCalls := st.fnCalls ++ failedCalls [msg] [record] } hset hlen
      rw [List.length_append, List.length_singleton] at this
      rw [this, tally_cons, failedCalls_cons msg msgs record rest]
      simp

theorem failedCalls_length (msgs : List Message) (records : List PutRecordsResultEntry)
    (hlen : records.length = msgs.length) :
    (failedCalls msgs records).length = records.countP (fun r => !isSuccess r) := by
  induction records generalizing msgs with
  | nil => simp [failedCalls]
  | cons record rest ih =>
    cases msgs with
    | nil => simp at hlen
    | cons msg msgs =>
      simp only [List.length_cons, Nat.add_right_cancel_iff] at hlen
      rw [failedCalls_cons, List.length_append, ih msgs hlen, List.countP_cons]
      by_cases h : isSuccess record = true <;> simp [failedCalls, h, Nat.add_comm]

/-! ## Batch dispatch: the claims -/

/-- C5, as stated, fails: two records are submitted and the response carries one
outcome; the call returns without a call-level error, one outcome is applied and
the success and failure increments sum to 1, not to 2. -/
theorem C5_counterexample_short_response :
    (PutRecords (fun _ => (some ⟨some 0, [okEntry "s0" "shard-0"]⟩, none)) zeroStats
        [some (newMessage "k0"), some (newMessage "k1")]).map
        (fun res => (res.2, res.1.stats.sentSuccess + res.1.stats.sentFailed))
      = some (none, 1)
    ∧ [some (newMessage "k0"), some (newMessage "k1")].length = 2 := by
  constructor <;> decide

/-- C5, amended: when a dispatch of N records returns without a call-level
error, the send succeeded with a response carrying K outcomes, K is at most N,
the batch still has N records, and the increments of the success counter and of
the failure counter sum to K, one per outcome applied, hence to N when the
response carries one outcome per submitted record; and a dispatch of N non-nil
records whose response has a failed count and K outcomes, K at most N, does
return without a call-level error, whether or not K equals N. -/
theorem C5_outcomes_tallied :
    (∀ (client : PutRecordsClient) (stats : Stats) (messages : List (Option Message))
        (st : PutState),
        PutRecords client stats messages = some (st, none) →
        ∃ out : PutRecordsOutput,
          client (requestEntries messages) = (some out, none)
            ∧ out.Records.length ≤ messages.length
            ∧ st.messages.length = messages.length
            ∧ st.stats.sentSuccess + st.stats.sentFailed
                = stats.sentSuccess + stats.sentFailed + out.Records.length
            ∧ (out.Records.length = messages.length →
                st.stats.sentSuccess + st.stats.sentFailed
                  = stats.sentSuccess + stats.sentFailed + messages.length))
      ∧ (∀ (client : PutRecordsClient) (stats : Stats) (msgs : List Message)
          (out : PutRecordsOutput) (failed : Int),
          client (requestEntries (msgs.map some)) = (some out, none) →
          out.FailedRecordCount = some failed →
          out.Records.length ≤ msgs.length →
          ∃ st : PutState, PutRecords client stats (msgs.map some) = some (st, none)) := by
  constructor
  · intro client stats messages st h
    unfold PutRecords at h
    dsimp only at h
    rcases hc : client (requestEntries messages) with ⟨resp, err⟩
    rw [hc] at h
    cases err with
    | some e => simp at h
    | none =>
      cases resp with
      | none => simp at h
      | some out =>
        refine ⟨out, rfl, ?_⟩
        simp only at h
        cases hf : out.FailedRecordCount with
        | none => simp [hf] at h
        | some f =>
          simp only [hf] at h
          cases hl : outcomeLoop 0 out.Records
              { messages := messages, stats := stats.AddPutRecordsCalled 1, fnCalls := [] } with
          | none => simp [hl] at h
          | some st1 =>
            simp only [hl, Option.some.injEq, Prod.mk.injEq, and_true] at h
            subst h
            obtain ⟨h1, h2, h3⟩ := outcomeLoop_counts _ _ _ _ hl
            simp only [Nat.sub_zero, Stats.AddPutRecordsCalled] at h1 h2 h3
            exact ⟨h1, h2, h3, fun he => by rw [h3, he]⟩
  · intro client stats msgs out failed hsend hcount hlen
    have hloop := outcomeLoop_present out.Records [] msgs
      { messages := msgs.map some, stats := stats.AddPutRecordsCalled 1, fnCalls := [] }
      (by simp) hlen
    simp only [List.length_nil] at hloop
    unfold PutRecords
    simp only [hsend, hcount, hloop]
    exact ⟨_, rfl⟩

/-- C5 at the short response: two records, one outcome, sum of increments 1. -/
theorem C5_outcomes_tallied_witness :
    PutRecords (fun _ => (some ⟨some 0, [okEntry "s0" "shard-0"]⟩, none)) zeroStats
        [some (newMessage "k0"), some (newMessage "k1")]
      = some (⟨[some (annotate (newMessage "k0") (okEntry "s0" "shard-0")),
                some (newMessage "k1")], ⟨1, 1, 0, 0⟩, []⟩, none)
    ∧ ∃ out : PutRecordsOutput,
        (some (⟨some 0, [okEntry "s0" "shard-0"]⟩ : PutRecordsOutput), (none : Option KError))
            = (some out, none)
          ∧ out.Records.length ≤ 2 ∧ 2 = 2 ∧ 1 + 0 = 0 + 0 + out.Records.length
          ∧ (out.Records.length = 2 → 1 + 0 = 0 + 0 + 2) :=
  ⟨by decide,
    C5_outcomes_tallied.1 (fun _ => (some ⟨some 0, [okEntry "s0" "shard-0"]⟩, none)) zeroStats
      [some (newMessage "k0"), some (newMessage "k1")]
      ⟨[some (annotate (newMessage "k0") (okEntry "s0" "shard-0")), some (newMessage "k1")],
        ⟨1, 1, 0, 0⟩, []⟩ (by decide)⟩

/-- C6: for a batch without nil records and a response with a failed count and
one outcome per record, `PutRecords` returns without error; record `i` becomes
`annotate` of record `i` and outcome `i`, that is, on an outcome with both a
sequence number and a shard id these two values are stored and nothing else
changes, and otherwise the error code and message of the outcome are stored and
the fail count grows by one, nothing else changing; the success counter grows by
the number of success outcomes, the failure counter by the number of the others,
the throughput-exceeded counter by the number of failures with that error code;
and the callback is called once for every failed record, in index order, with
the record as annotated, and for no other record. -/
theorem C6_per_record_outcomes (client : PutRecordsClient) (stats : Stats)
    (msgs : List Message) (out : PutRecordsOutput) (failed : Int)
    (hsend : client (requestEntries (msgs.map some)) = (some out, none))
    (hcount : out.FailedRecordCount = some failed)
    (hlen : out.Records.length = msgs.length) :
    ∃ st : PutState,
      PutRecords client stats (msgs.map some) = some (st, none)
        ∧ st.messages = (List.zipWith annotate msgs out.Records).map some
        ∧ (∀ (i : Nat) (msg : Message) (record : PutRecordsResultEntry),
            msgs[i]? = some msg → out.Records[i]? = some record →
              st.messages[i]? = some (some (annotate msg record)))
        ∧ st.stats.sentSuccess = stats.sentSuccess + out.Records.countP isSuccess
        ∧ st.stats.sentFailed = stats.sentFailed + out.Records.countP (fun r => !isSuccess r)
        ∧ st.stats.provisionedThroughputExceeded
            = stats.provisionedThroughputExceeded + out.Records.countP isThroughputExceeded
        ∧ st.fnCalls = failedCalls msgs out.Records
        ∧ st.fnCalls.length = out.Records.countP (fun r => !isSuccess r)
        ∧ (∀ (msg : Message) (record : PutRecordsResultEntry),
            record.SequenceNumber.isSome = true → record.ShardId.isSome = true →
              annotate msg record
                = { msg with SequenceNumber := record.SequenceNumber, ShardID := record.ShardId })
        ∧ (∀ (msg : Message) (record : PutRecordsResultEntry),
            (record.SequenceNumber = none ∨ record.ShardId = none) →
              annotate msg record
                = { msg with
                    ErrorCode := record.ErrorCode
                    ErrorMessage := record.ErrorMessage
                    FailCount := msg.FailCount + 1 }) := by
  have hloop := outcomeLoop_present out.Records [] msgs
    { messages := msgs.map some, stats := stats.AddPutRecordsCalled 1, fnCalls := [] }
    (by simp) (by omega)
  have hdrop : msgs.drop out.Records.length = [] := by
    rw [hlen, List.drop_length]
  simp only [List.length_nil, List.map_nil, List.nil_append, hdrop, List.append_nil] at hloop
  refine ⟨⟨(List.zipWith annotate msgs out.Records).map some,
      tally (stats.AddPutRecordsCalled 1) out.Records, failedCalls msgs out.Records⟩,
    ?_, rfl, ?_, rfl, rfl, rfl, rfl, ?_, ?_, ?_⟩
  · unfold PutRecords
    simp only [hsend, hcount, hloop]
  · intro i msg record hm hr
    simp only [List.getElem?_map, List.getElem?_zipWith, hm, hr, Option.map_some']
  · exact failedCalls_length msgs out.Records hlen
  · intro msg record h1 h2
    simp [annotate, isSuccess, h1, h2]
  · intro msg record h
    have : isSuccess record = false := by
      rcases h with h | h <;> simp [isSuccess, h]
    simp [annotate, this]

/-- C6 at the example of the specification: five records, indices 2 and 4 failed
as throughput-exceeded: three successes, two failures, two throughput-exceeded,
two callback calls. -/
theorem C6_per_record_outcomes_witness :
    ((fun _ => (some fiveOutcomes, none)) : PutRecordsClient)
        (requestEntries (fiveMessages.map some)) = (some fiveOutcomes, none)
      ∧ fiveOutcomes.FailedRecordCount = some 2
      ∧ fiveOutcomes.Records.length = fiveMessages.length
      ∧ ∃ st : PutState,
          PutRecords (fun _ => (some fiveOutcomes, none)) zeroStats (fiveMessages.map some)
              = some (st, none)
            ∧ st.stats.sentSuccess = 3 ∧ st.stats.sentFailed = 2
            ∧ st.stats.provisionedThroughputExceeded = 2
            ∧ st.fnCalls.length = 2 := by
  refine ⟨rfl, rfl, rfl, ?_⟩
  obtain ⟨st, h1, _, _, h4, h5, h6, _, h8, _, _⟩ :=
    C6_per_record_outcomes (fun _ => (some fiveOutcomes, none)) zeroStats fiveMessages
      fiveOutcomes 2 rfl rfl rfl
  refine ⟨st, h1, ?_, ?_, ?_, ?_⟩
  · rw [h4]; decide
  · rw [h5]; decide
  · rw [h6]; decide
  · rw [h8]; decide

/-- C9: when the send succeeds and the response is nil, or lacks the failed
count, `PutRecords` returns `ErrNilPutRecordsResponse`, respectively
`ErrNilFailedRecordCount`; the records of the batch are unchanged, the callback
is not called, and the success, failure and throughput-exceeded counters are
unchanged (the call counter alone has grown). -/
theorem C9_incomplete_response (client : PutRecordsClient) (stats : Stats)
    (messages : List (Option Message)) (resp : Option PutRecordsOutput)
    (hsend : client (requestEntries messages) = (resp, none))
    (hbad : resp = none ∨ ∃ records, resp = some ⟨none, records⟩) :
    ∃ (st : PutState) (err : KError),
      PutRecords client stats messages = some (st, some err)
        ∧ (resp = none → err = KError.ErrNilPutRecordsResponse)
        ∧ (resp ≠ none → err = KError.ErrNilFailedRecordCount)
        ∧ st.messages = messages
        ∧ st.fnCalls = []
        ∧ st.stats.sentSuccess = stats.sentSuccess
        ∧ st.stats.sentFailed = stats.sentFailed
        ∧ st.stats.provisionedThroughputExceeded = stats.provisionedThroughputExceeded := by
  rcases hbad with h | ⟨records, h⟩
  · subst h
    refine ⟨⟨messages, stats.AddPutRecordsCalled 1, []⟩, KError.ErrNilPutRecordsResponse, ?_,
      fun _ => rfl, fun hne => absurd rfl hne, rfl, rfl, rfl, rfl, rfl⟩
    unfold PutRecords
    simp only [hsend]
  · subst h
    refine ⟨⟨messages, stats.AddPutRecordsCalled 1, []⟩, KError.ErrNilFailedRecordCount, ?_,
      fun he => Option.noConfusion he, fun _ => rfl, rfl, rfl, rfl, rfl, rfl⟩
    unfold PutRecords
    simp only [hsend]

/-- C9 at a nil response for the five-record batch. -/
theorem C9_incomplete_response_witness :
    (((fun _ => (none, none)) : PutRecordsClient) (requestEntries (fiveMessages.map some))
        = (none, none))
      ∧ ((none : Option PutRecordsOutput) = none
          ∨ ∃ records, (none : Option PutRecordsOutput) = some ⟨none, records⟩)
      ∧ ∃ (st : PutState) (err : KError),
          PutRecords (fun _ => (none, none)) zeroStats (fiveMessages.map some)
              = some (st, some err)
            ∧ ((none : Option PutRecordsOutput) = none → err = KError.ErrNilPutRecordsResponse)
            ∧ ((none : Option PutRecordsOutput) ≠ none → err = KError.ErrNilFailedRecordCount)
            ∧ st.messages = fiveMessages.map some
            ∧ st.fnCalls = []
            ∧ st.stats.sentSuccess = zeroStats.sentSuccess
            ∧ st.stats.sentFailed = zeroStats.sentFailed
            ∧ st.stats.provisionedThroughputExceeded
                = zeroStats.provisionedThroughputExceeded :=
  ⟨rfl, Or.inl rfl,
    C9_incomplete_response (fun _ => (none, none)) zeroStats (fiveMessages.map some) none rfl
      (Or.inl rfl)⟩

end Kinetic
